import Mathlib

/-!
Verification of the prisma-utils repository: a shallow embedding of its
error classifier (isPrismaError in its three source variants) and of its
transaction helpers (TransactionWatcher / TransactionManager,
watchedTransaction, useTransactionManager, useTransaction), with theorems
settling the specification claims.
-/

namespace PrismaUtils

/-- JavaScript runtime values, as far as the error classifier inspects them:
strings, numbers, booleans, arrays, and `undefined`. `meta` fields that are
absent read as `undef`. -/
inductive JsVal where
  | str (s : String)
  | num (n : Int)
  | jsBool (b : Bool)
  | arr (elems : List JsVal)
  | undef
  deriving Repr

mutual

/-- Decidable equality for `JsVal`, written by hand because the nested list
in the `arr` constructor defeats the derive handler. -/
def jsValDecEq : (a b : JsVal) → Decidable (a = b)
  | JsVal.str a, JsVal.str b =>
      match decEq a b with
      | isTrue h => isTrue (by rw [h])
      | isFalse h => isFalse (fun hh => h (JsVal.str.inj hh))
  | JsVal.num a, JsVal.num b =>
      match decEq a b with
      | isTrue h => isTrue (by rw [h])
      | isFalse h => isFalse (fun hh => h (JsVal.num.inj hh))
  | JsVal.jsBool a, JsVal.jsBool b =>
      match decEq a b with
      | isTrue h => isTrue (by rw [h])
      | isFalse h => isFalse (fun hh => h (JsVal.jsBool.inj hh))
  | JsVal.arr a, JsVal.arr b =>
      match jsValListDecEq a b with
      | isTrue h => isTrue (by rw [h])
      | isFalse h => isFalse (fun hh => h (JsVal.arr.inj hh))
  | JsVal.undef, JsVal.undef => isTrue rfl
  | JsVal.str _, JsVal.num _ => isFalse (fun h => JsVal.noConfusion h)
  | JsVal.str _, JsVal.jsBool _ => isFalse (fun h => JsVal.noConfusion h)
  | JsVal.str _, JsVal.arr _ => isFalse (fun h => JsVal.noConfusion h)
  | JsVal.str _, JsVal.undef => isFalse (fun h => JsVal.noConfusion h)
  | JsVal.num _, JsVal.str _ => isFalse (fun h => JsVal.noConfusion h)
  | JsVal.num _, JsVal.jsBool _ => isFalse (fun h => JsVal.noConfusion h)
  | JsVal.num _, JsVal.arr _ => isFalse (fun h => JsVal.noConfusion h)
  | JsVal.num _, JsVal.undef => isFalse (fun h => JsVal.noConfusion h)
  | JsVal.jsBool _, JsVal.str _ => isFalse (fun h => JsVal.noConfusion h)
  | JsVal.jsBool _, JsVal.num _ => isFalse (fun h => JsVal.noConfusion h)
  | JsVal.jsBool _, JsVal.arr _ => isFalse (fun h => JsVal.noConfusion h)
  | JsVal.jsBool _, JsVal.undef => isFalse (fun h => JsVal.noConfusion h)
  | JsVal.arr _, JsVal.str _ => isFalse (fun h => JsVal.noConfusion h)
  | JsVal.arr _, JsVal.num _ => isFalse (fun h => JsVal.noConfusion h)
  | JsVal.arr _, JsVal.jsBool _ => isFalse (fun h => JsVal.noConfusion h)
  | JsVal.arr _, JsVal.undef => isFalse (fun h => JsVal.noConfusion h)
  | JsVal.undef, JsVal.str _ => isFalse (fun h => JsVal.noConfusion h)
  | JsVal.undef, JsVal.num _ => isFalse (fun h => JsVal.noConfusion h)
  | JsVal.undef, JsVal.jsBool _ => isFalse (fun h => JsVal.noConfusion h)
  | JsVal.undef, JsVal.arr _ => isFalse (fun h => JsVal.noConfusion h)

/-- Decidable equality for lists of `JsVal`. -/
def jsValListDecEq : (a b : List JsVal) → Decidable (a = b)
  | [], [] => isTrue rfl
  | [], _ :: _ => isFalse (fun h => List.noConfusion h)
  | _ :: _, [] => isFalse (fun h => List.noConfusion h)
  | x :: xs, y :: ys =>
      match jsValDecEq x y, jsValListDecEq xs ys with
      | isTrue h1, isTrue h2 => isTrue (by rw [h1, h2])
      | isFalse h1, _ => isFalse (fun h => h1 (List.cons.inj h).1)
      | isTrue _, isFalse h2 => isFalse (fun h => h2 (List.cons.inj h).2)

end

instance : DecidableEq JsVal := jsValDecEq

/-- The fields of `error.meta` that the classifier reads
(`meta.modelName`, `meta.target`, `meta.field_name`); any of them may be
`undef` when the underlying object lacks the key. -/
structure MetaInfo where
  modelName : JsVal := JsVal.undef
  target : JsVal := JsVal.undef
  field_name : JsVal := JsVal.undef
  deriving Repr, DecidableEq

/-- A caught JavaScript value as inspected by the classifiers. The three
Boolean fields record the outcomes of the runtime checks the source performs:
`error instanceof Error`, `error instanceof Prisma.PrismaClientKnownRequestError`
(the standalone function), and `error instanceof this.PrismaClientKnownRequestErrorClass`
(the PrismaHelper method). `meta` is `none` when `error.meta` is undefined. -/
structure CaughtError where
  isErrorInstance : Bool
  name : String
  isKnownRequestErrorStd : Bool
  isKnownRequestErrorHelper : Bool
  code : String
  meta : Option MetaInfo
  message : String
  deriving Repr, DecidableEq

/-- Boolean test that the list `p` is a prefix of the list `s`. -/
def charsPrefixOf : List Char → List Char → Bool
  | [], _ => true
  | _ :: _, [] => false
  | a :: as, b :: bs => a == b && charsPrefixOf as bs

/-- Boolean test that the list `p` occurs contiguously inside `s`. -/
def charsInfixOf (p : List Char) : List Char → Bool
  | [] => charsPrefixOf p []
  | c :: rest => charsPrefixOf p (c :: rest) || charsInfixOf p rest

/-- JavaScript `s.includes(pat)`: `pat` occurs in `s` as a substring. -/
def strIncludes (s pat : String) : Bool :=
  charsInfixOf pat.data s.data

/-- JavaScript truthiness of a `string | null | undefined` value: truthy
exactly when it is a present, non-empty string. -/
def strTruthy : Option String → Bool
  | some s => !(s == "")
  | none => false

/-- The test `!targetList || !targetList.length`: the target list is null,
undefined or empty. -/
def targetListAbsent : Option (List String) → Bool
  | none => true
  | some l => l.isEmpty

/-- The value of `error.meta?.modelName` (undefined when `meta` is undefined). -/
def metaModelName (e : CaughtError) : JsVal :=
  match e.meta with
  | some m => m.modelName
  | none => JsVal.undef

/-- The value of `error.meta?.target`. -/
def metaTarget (e : CaughtError) : JsVal :=
  match e.meta with
  | some m => m.target
  | none => JsVal.undef

/-- The value of `error.meta?.field_name`. -/
def metaFieldName (e : CaughtError) : JsVal :=
  match e.meta with
  | some m => m.field_name
  | none => JsVal.undef

/-- The guard `modelName && error.meta?.modelName !== modelName`: a truthy
model name was supplied and the meta model name differs from it. -/
def modelNameMismatch (e : CaughtError) : Option String → Bool
  | some m => !(m == "") && !(metaModelName e == JsVal.str m)
  | none => false

/-- The loop over `meta.target`: some string element of the array contains
some element of the target list as a substring. Non-array targets and
non-string elements are skipped, as in the source. -/
def targetArrayHit (tv : JsVal) (targetList : List String) : Bool :=
  match tv with
  | JsVal.arr elems =>
      elems.any fun et =>
        match et with
        | JsVal.str s => targetList.any fun t => strIncludes s t
        | _ => false
  | _ => false

/-- The `meta.field_name` check: the field is a string containing some element
of the target list as a substring. -/
def fieldNameHit (fv : JsVal) (targetList : List String) : Bool :=
  match fv with
  | JsVal.str s => targetList.any fun t => strIncludes s t
  | _ => false

/-- The standalone `isPrismaError` of `src/utils/error-handling.ts`
(src/unnamed/part_001): guard on
`error instanceof Prisma.PrismaClientKnownRequestError` and `error.code`,
then the optional model-name filter, then the target-list search over
`meta.target` and `meta.field_name`. -/
def isPrismaError (e : CaughtError) (errorCode : String)
    (targetList : Option (List String)) (modelName : Option String) : Bool :=
  if !e.isKnownRequestErrorStd || e.code != errorCode then
    false
  else if modelNameMismatch e modelName then
    false
  else if targetListAbsent targetList then
    true
  else
    targetArrayHit (metaTarget e) (targetList.getD []) ||
      fieldNameHit (metaFieldName e) (targetList.getD [])

/-- The `PrismaHelper.isPrismaError` method in its target-list form: identical
logic to the standalone function except that the instance check uses the
injected `PrismaClientKnownRequestErrorClass` and is performed before the
separate code comparison. -/
def helperIsPrismaError (e : CaughtError) (errorCode : String)
    (targetList : Option (List String)) (modelName : Option String) : Bool :=
  if !e.isKnownRequestErrorHelper then
    false
  else if e.code != errorCode then
    false
  else if modelNameMismatch e modelName then
    false
  else if targetListAbsent targetList then
    true
  else
    targetArrayHit (metaTarget e) (targetList.getD []) ||
      fieldNameHit (metaFieldName e) (targetList.getD [])

/-- A `RegExp | string | string[]` pattern argument. A regular expression is
modelled by its match predicate on strings. -/
inductive PatternArg where
  | strPat (s : String)
  | listPat (ps : List String)
  | regexPat (test : String → Bool)

/-- JavaScript truthiness of a `RegExp | string | string[] | null | undefined`
pattern argument: null, undefined and the empty string are falsy; arrays and
RegExp objects are always truthy. -/
def patternTruthy : Option PatternArg → Bool
  | none => false
  | some (PatternArg.strPat s) => !(s == "")
  | some (PatternArg.listPat _) => true
  | some (PatternArg.regexPat _) => true

/-- Dispatch on the pattern argument as the source does: an array matches when
some element occurs in the subject, a RegExp via `test`, a plain string via
`includes`. -/
def patternMatches (p : PatternArg) (subject : String) : Bool :=
  match p with
  | PatternArg.listPat ps => ps.any fun q => strIncludes subject q
  | PatternArg.regexPat f => f subject
  | PatternArg.strPat q => strIncludes subject q

/-- JSON.stringify of a JavaScript value; `none` when the value is `undefined`
(such properties are omitted by JSON.stringify). String escaping is not
modelled. Undefined array elements stringify to null. -/
def jsonOfJsVal : JsVal → Option String
  | JsVal.str s => some ("\"" ++ s ++ "\"")
  | JsVal.num n => some (toString n)
  | JsVal.jsBool b => some (cond b "true" "false")
  | JsVal.arr xs => some ("[" ++ String.intercalate "," (jsonOfList xs) ++ "]")
  | JsVal.undef => none
where
  /-- Stringify each array element, rendering `undefined` as null. -/
  jsonOfList : List JsVal → List String
    | [] => []
    | v :: vs => ((jsonOfJsVal v).getD "null") :: jsonOfList vs

/-- JSON.stringify of `prismaError.meta || \x7b\x7d`: present meta fields are
serialized in order; an absent meta object serializes to the empty JSON
object. -/
def jsonStringifyMeta : Option MetaInfo → String
  | none => "\x7b\x7d"
  | some m =>
      let entries :=
        (match jsonOfJsVal m.modelName with
          | some s => ["\"modelName\":" ++ s]
          | none => []) ++
        (match jsonOfJsVal m.target with
          | some s => ["\"target\":" ++ s]
          | none => []) ++
        (match jsonOfJsVal m.field_name with
          | some s => ["\"field_name\":" ++ s]
          | none => [])
      "\x7b" ++ String.intercalate "," entries ++ "\x7d"

/-- The `PrismaHelper.isPrismaError` method in its pattern form: guard on
`error instanceof Error` plus `error.name`, then the code comparison, then
the optional meta-pattern match against the stringified meta, then the
optional message-pattern match; with neither pattern supplied it falls
through to `return false`. -/
def helperIsPrismaErrorPatterns (e : CaughtError) (errorCode : String)
    (metaPatterns : Option PatternArg) (messagePatterns : Option PatternArg) : Bool :=
  if !e.isErrorInstance || e.name != "PrismaClientKnownRequestError" then
    false
  else if e.code != errorCode then
    false
  else
    let metaString := jsonStringifyMeta e.meta
    if patternTruthy metaPatterns then
      patternMatches ((metaPatterns.getD (PatternArg.strPat ""))) metaString
    else if patternTruthy messagePatterns then
      patternMatches ((messagePatterns.getD (PatternArg.strPat ""))) e.message
    else
      false

/-! ## Transaction helpers -/

/-- An error that settles the wrapped transaction promise: either a value the
exec body threw, or a JavaScript `Error` raised by the watcher/manager itself
(the termination guard), carrying its message. -/
inductive TxErr (ε : Type) where
  | user (e : ε)
  | thrown (msg : String)
  deriving Repr, DecidableEq

/-- Message of the `Error` thrown by `_assertNotTerminated`. -/
def terminatedMessage : String := "Transaction has already been terminated."

/-- State of a `_TransactionWatcher` from `src/utils/transaction.ts`: the
transaction client, the two ordered handler lists, and the terminated flag.
Watcher success handlers thread the result (`result = await handler(result)`),
so they have type `ρ → Except ε ρ`. -/
structure TransactionWatcher (κ ρ ε : Type) where
  client : κ
  successHandlers : List (ρ → Except ε ρ) := []
  errorHandlers : List (TxErr ε → Except ε Unit) := []
  isTerminated : Bool := false

namespace TransactionWatcher

/-- The constructor `new _TransactionWatcher(client)`. -/
def new (c : κ) : TransactionWatcher κ ρ ε := { client := c }

/-- The `client` getter: asserts not terminated, then returns the stored
client. -/
def getClient (w : TransactionWatcher κ ρ ε) : Except String κ :=
  if w.isTerminated then Except.error terminatedMessage else Except.ok w.client

/-- The `onSuccess` method: asserts not terminated, then pushes the handler
and returns the (updated) watcher. -/
def onSuccess (w : TransactionWatcher κ ρ ε) (h : ρ → Except ε ρ) :
    Except String (TransactionWatcher κ ρ ε) :=
  if w.isTerminated then Except.error terminatedMessage
  else Except.ok { w with successHandlers := w.successHandlers ++ [h] }

/-- The `onError` method: asserts not terminated, then pushes the handler and
returns the (updated) watcher. -/
def onError (w : TransactionWatcher κ ρ ε) (h : TxErr ε → Except ε Unit) :
    Except String (TransactionWatcher κ ρ ε) :=
  if w.isTerminated then Except.error terminatedMessage
  else Except.ok { w with errorHandlers := w.errorHandlers ++ [h] }

end TransactionWatcher

/-- The success-handler loop of the watcher: handlers run in list order with
the threaded result, stopping at the first handler that throws. Returns the
trace of invocations (handler, argument it received) and the error of the
throwing handler, if any. -/
def runSuccessChain : List (ρ → Except ε ρ) → ρ →
    List ((ρ → Except ε ρ) × ρ) × Option ε
  | [], _ => ([], none)
  | h :: rest, r =>
      match h r with
      | Except.ok r2 =>
          let (fired, err) := runSuccessChain rest r2
          ((h, r) :: fired, err)
      | Except.error e => ([(h, r)], some e)

/-- A handler loop in which every handler receives the same argument (the
manager's success loop and both error loops), stopping at the first handler
that throws. Returns the invocation trace and the thrown error, if any. -/
def runHandlerSeq : List (α → Except ε Unit) → α →
    List ((α → Except ε Unit) × α) × Option ε
  | [], _ => ([], none)
  | h :: rest, a =>
      match h a with
      | Except.ok _ =>
          let (fired, err) := runHandlerSeq rest a
          ((h, a) :: fired, err)
      | Except.error e => ([(h, a)], some e)

namespace TransactionWatcher

/-- The keyed success method: set the terminated flag, then run the success
handlers on the already-terminated watcher. -/
def fireSuccess (w : TransactionWatcher κ ρ ε) (r : ρ) :
    TransactionWatcher κ ρ ε × (List ((ρ → Except ε ρ) × ρ) × Option ε) :=
  let w2 := { w with isTerminated := true }
  (w2, runSuccessChain w2.successHandlers r)

/-- The keyed error method: set the terminated flag, then run the error
handlers, each receiving the rejection error. -/
def fireError (w : TransactionWatcher κ ρ ε) (e : TxErr ε) :
    TransactionWatcher κ ρ ε × (List ((TxErr ε → Except ε Unit) × TxErr ε) × Option ε) :=
  let w2 := { w with isTerminated := true }
  (w2, runHandlerSeq w2.errorHandlers e)

end TransactionWatcher

/-- An operation the exec body can perform on its watcher: register a success
handler or register an error handler. -/
inductive WatcherOp (ρ ε : Type) where
  | regSuccess (h : ρ → Except ε ρ)
  | regError (h : TxErr ε → Except ε Unit)

/-- An exec body, as observed through the watcher interface: the sequence of
registrations it performs, and the outcome it then returns or throws. -/
structure WatcherExec (ρ ε : Type) where
  ops : List (WatcherOp ρ ε)
  outcome : Except ε ρ

/-- The success handlers a sequence of operations registers, in registration
order. -/
def regSuccessOf : List (WatcherOp ρ ε) → List (ρ → Except ε ρ)
  | [] => []
  | WatcherOp.regSuccess h :: rest => h :: regSuccessOf rest
  | WatcherOp.regError _ :: rest => regSuccessOf rest

/-- The error handlers a sequence of operations registers, in registration
order. -/
def regErrorOf : List (WatcherOp ρ ε) → List (TxErr ε → Except ε Unit)
  | [] => []
  | WatcherOp.regSuccess _ :: rest => regErrorOf rest
  | WatcherOp.regError h :: rest => h :: regErrorOf rest

/-- Apply one registration to the watcher (may throw the termination error). -/
def applyWatcherOp (w : TransactionWatcher κ ρ ε) :
    WatcherOp ρ ε → Except String (TransactionWatcher κ ρ ε)
  | WatcherOp.regSuccess h => w.onSuccess h
  | WatcherOp.regError h => w.onError h

/-- Run the registrations in order; a throwing registration aborts the body,
keeping the registrations already made. -/
def runWatcherOps (w : TransactionWatcher κ ρ ε) :
    List (WatcherOp ρ ε) → TransactionWatcher κ ρ ε × Option String
  | [] => (w, none)
  | op :: rest =>
      match applyWatcherOp w op with
      | Except.ok w2 => runWatcherOps w2 rest
      | Except.error m => (w, some m)

/-- Embed an exec outcome into the transaction error universe. -/
def liftUserErr : Except ε ρ → Except (TxErr ε) ρ
  | Except.ok r => Except.ok r
  | Except.error e => Except.error (TxErr.user e)

/-- Run the exec body on a watcher: perform its registrations, then settle
with its outcome (or with the error a registration threw). -/
def runWatcherExec (ex : WatcherExec ρ ε) (w : TransactionWatcher κ ρ ε) :
    TransactionWatcher κ ρ ε × Except (TxErr ε) ρ :=
  match runWatcherOps w ex.ops with
  | (w2, none) => (w2, liftUserErr ex.outcome)
  | (w2, some m) => (w2, Except.error (TxErr.thrown m))

/-- Model of the external `PrismaClient`, seen only through `$transaction`:
the transaction client it hands to the body, and the two ways the external
primitive itself can reject — before running the body (`preFail`, e.g. a
connection failure, so the watcher is never created) or at commit after the
body resolved (`postFail`). -/
structure PrismaClientModel (κ ρ ε : Type) where
  txClient : κ
  preFail : Option (TxErr ε) := none
  postFail : Option (TxErr ε) := none

/-- The `prisma.$transaction` call of `watchedTransaction`, whose body creates
a fresh watcher and runs the exec on it. Returns the final value of the outer
`watcher` variable (none when the body never ran) and the settle value of the
transaction promise. -/
def dollarTransactionWatcher (p : PrismaClientModel κ ρ ε) (ex : WatcherExec ρ ε) :
    Option (TransactionWatcher κ ρ ε) × Except (TxErr ε) ρ :=
  match p.preFail with
  | some e => (none, Except.error e)
  | none =>
      let (w1, res) := runWatcherExec ex (TransactionWatcher.new p.txClient)
      match res with
      | Except.ok r =>
          match p.postFail with
          | some e => (some w1, Except.error e)
          | none => (some w1, Except.ok r)
      | Except.error e => (some w1, Except.error e)

/-- Name of the default logger, `console.error`. -/
def consoleError : String := "console.error"

/-- The options object of `watchedTransaction`. -/
structure WatcherOptions (κ ρ ε : Type) where
  prisma : PrismaClientModel κ ρ ε
  successHandlerErrorLogger : String := consoleError
  errorHandlerErrorLogger : String := consoleError
  existingWatcher : Option (TransactionWatcher κ ρ ε) := none

/-- Everything observable about one `watchedTransaction` call: the value it
resolves or rejects with, how many transactions it started, the success and
error handler invocations it triggered, what each configured logger received,
and the final state of the watcher (none if no watcher ever existed). -/
structure WatchedOutcome (κ ρ ε : Type) where
  result : Except (TxErr ε) ρ
  transactionsStarted : Nat
  firedSuccess : List ((ρ → Except ε ρ) × ρ)
  firedError : List ((TxErr ε → Except ε Unit) × TxErr ε)
  loggedSuccess : Option (String × ε)
  loggedError : Option (String × ε)
  finalWatcher : Option (TransactionWatcher κ ρ ε)

/-- The `watchedTransaction` function of `src/utils/transaction.ts`: with an
existing watcher it just runs the exec on it; otherwise it runs the exec in a
fresh transaction, then fires the success handlers (resolve) or the error
handlers (reject, if the watcher exists), routing handler errors to the
configured loggers, and settles with the transaction's own settle value. -/
def watchedTransaction (opts : WatcherOptions κ ρ ε) (ex : WatcherExec ρ ε) :
    WatchedOutcome κ ρ ε :=
  match opts.existingWatcher with
  | some w =>
      let (w2, res) := runWatcherExec ex w
      { result := res, transactionsStarted := 0,
        firedSuccess := [], firedError := [],
        loggedSuccess := none, loggedError := none,
        finalWatcher := some w2 }
  | none =>
      match dollarTransactionWatcher opts.prisma ex with
      | (none, res) =>
          { result := res, transactionsStarted := 1,
            firedSuccess := [], firedError := [],
            loggedSuccess := none, loggedError := none,
            finalWatcher := none }
      | (some w1, Except.ok r) =>
          let (w2, fs) := w1.fireSuccess r
          { result := Except.ok r, transactionsStarted := 1,
            firedSuccess := fs.1, firedError := [],
            loggedSuccess := fs.2.map (fun e => (opts.successHandlerErrorLogger, e)),
            loggedError := none,
            finalWatcher := some w2 }
      | (some w1, Except.error e) =>
          let (w2, fs) := w1.fireError e
          { result := Except.error e, transactionsStarted := 1,
            firedSuccess := [], firedError := fs.1,
            loggedSuccess := none,
            loggedError := fs.2.map (fun e2 => (opts.errorHandlerErrorLogger, e2)),
            finalWatcher := some w2 }

/-- State of a `_TransactionManager` (src/unnamed/part_000 and
prisma-helper.ts): like the watcher, but success handlers do not thread the
result — every success handler receives the transaction result. -/
structure TransactionManager (κ ρ ε : Type) where
  client : κ
  successHandlers : List (ρ → Except ε Unit) := []
  errorHandlers : List (TxErr ε → Except ε Unit) := []
  isTerminated : Bool := false

namespace TransactionManager

/-- The constructor `new _TransactionManager(client)`. -/
def new (c : κ) : TransactionManager κ ρ ε := { client := c }

/-- The `client` getter: asserts not terminated, then returns the stored
client. -/
def getClient (m : TransactionManager κ ρ ε) : Except String κ :=
  if m.isTerminated then Except.error terminatedMessage else Except.ok m.client

/-- The `onSuccess` method of the manager. -/
def onSuccess (m : TransactionManager κ ρ ε) (h : ρ → Except ε Unit) :
    Except String (TransactionManager κ ρ ε) :=
  if m.isTerminated then Except.error terminatedMessage
  else Except.ok { m with successHandlers := m.successHandlers ++ [h] }

/-- The `onError` method of the manager. -/
def onError (m : TransactionManager κ ρ ε) (h : TxErr ε → Except ε Unit) :
    Except String (TransactionManager κ ρ ε) :=
  if m.isTerminated then Except.error terminatedMessage
  else Except.ok { m with errorHandlers := m.errorHandlers ++ [h] }

/-- The keyed success method of the manager: set the terminated flag, then run
the success handlers, each receiving the transaction result. -/
def fireSuccess (m : TransactionManager κ ρ ε) (r : ρ) :
    TransactionManager κ ρ ε × (List ((ρ → Except ε Unit) × ρ) × Option ε) :=
  let m2 := { m with isTerminated := true }
  (m2, runHandlerSeq m2.successHandlers r)

/-- The keyed error method of the manager: set the terminated flag, then run
the error handlers, each receiving the rejection error. -/
def fireError (m : TransactionManager κ ρ ε) (e : TxErr ε) :
    TransactionManager κ ρ ε × (List ((TxErr ε → Except ε Unit) × TxErr ε) × Option ε) :=
  let m2 := { m with isTerminated := true }
  (m2, runHandlerSeq m2.errorHandlers e)

end TransactionManager

/-- An operation the exec body can perform on its manager. -/
inductive ManagerOp (ρ ε : Type) where
  | regSuccess (h : ρ → Except ε Unit)
  | regError (h : TxErr ε → Except ε Unit)

/-- An exec body for `useTransactionManager`: its registrations and its
outcome. -/
structure ManagerExec (ρ ε : Type) where
  ops : List (ManagerOp ρ ε)
  outcome : Except ε ρ

/-- The success handlers a sequence of manager operations registers, in
order. -/
def mRegSuccessOf : List (ManagerOp ρ ε) → List (ρ → Except ε Unit)
  | [] => []
  | ManagerOp.regSuccess h :: rest => h :: mRegSuccessOf rest
  | ManagerOp.regError _ :: rest => mRegSuccessOf rest

/-- The error handlers a sequence of manager operations registers, in order. -/
def mRegErrorOf : List (ManagerOp ρ ε) → List (TxErr ε → Except ε Unit)
  | [] => []
  | ManagerOp.regSuccess _ :: rest => mRegErrorOf rest
  | ManagerOp.regError h :: rest => h :: mRegErrorOf rest

/-- Apply one registration to the manager. -/
def applyManagerOp (m : TransactionManager κ ρ ε) :
    ManagerOp ρ ε → Except String (TransactionManager κ ρ ε)
  | ManagerOp.regSuccess h => m.onSuccess h
  | ManagerOp.regError h => m.onError h

/-- Run the registrations in order; a throwing registration aborts the body. -/
def runManagerOps (m : TransactionManager κ ρ ε) :
    List (ManagerOp ρ ε) → TransactionManager κ ρ ε × Option String
  | [] => (m, none)
  | op :: rest =>
      match applyManagerOp m op with
      | Except.ok m2 => runManagerOps m2 rest
      | Except.error msg => (m, some msg)

/-- Run the exec body on a manager. -/
def runManagerExec (ex : ManagerExec ρ ε) (m : TransactionManager κ ρ ε) :
    TransactionManager κ ρ ε × Except (TxErr ε) ρ :=
  match runManagerOps m ex.ops with
  | (m2, none) => (m2, liftUserErr ex.outcome)
  | (m2, some msg) => (m2, Except.error (TxErr.thrown msg))

/-- The `prisma.$transaction` call of `useTransactionManager`. -/
def dollarTransactionManager (p : PrismaClientModel κ ρ ε) (ex : ManagerExec ρ ε) :
    Option (TransactionManager κ ρ ε) × Except (TxErr ε) ρ :=
  match p.preFail with
  | some e => (none, Except.error e)
  | none =>
      let (m1, res) := runManagerExec ex (TransactionManager.new p.txClient)
      match res with
      | Except.ok r =>
          match p.postFail with
          | some e => (some m1, Except.error e)
          | none => (some m1, Except.ok r)
      | Except.error e => (some m1, Except.error e)

/-- The options object of `useTransactionManager`. -/
structure ManagerOptions where
  successHandlerErrorLogger : String := consoleError
  errorHandlerErrorLogger : String := consoleError

/-- Everything observable about one `useTransactionManager` call. -/
structure ManagedOutcome (κ ρ ε : Type) where
  result : Except (TxErr ε) ρ
  transactionsStarted : Nat
  firedSuccess : List ((ρ → Except ε Unit) × ρ)
  firedError : List ((TxErr ε → Except ε Unit) × TxErr ε)
  loggedSuccess : Option (String × ε)
  loggedError : Option (String × ε)
  finalManager : Option (TransactionManager κ ρ ε)

/-- The `useTransactionManager` function (src/unnamed/part_000 and the
PrismaHelper method): run the exec in a fresh transaction, fire the manager's
success or error handlers after it settles, route handler errors to the
configured loggers, and settle with the transaction's own settle value. -/
def useTransactionManager (p : PrismaClientModel κ ρ ε) (ex : ManagerExec ρ ε)
    (opts : ManagerOptions := {}) : ManagedOutcome κ ρ ε :=
  match dollarTransactionManager p ex with
  | (none, res) =>
      { result := res, transactionsStarted := 1,
        firedSuccess := [], firedError := [],
        loggedSuccess := none, loggedError := none,
        finalManager := none }
  | (some m1, Except.ok r) =>
      let (m2, fs) := m1.fireSuccess r
      { result := Except.ok r, transactionsStarted := 1,
        firedSuccess := fs.1, firedError := [],
        loggedSuccess := fs.2.map (fun e => (opts.successHandlerErrorLogger, e)),
        loggedError := none,
        finalManager := some m2 }
  | (some m1, Except.error e) =>
      let (m2, fs) := m1.fireError e
      { result := Except.error e, transactionsStarted := 1,
        firedSuccess := [], firedError := fs.1,
        loggedSuccess := none,
        loggedError := fs.2.map (fun e2 => (opts.errorHandlerErrorLogger, e2)),
        finalManager := some m2 }

/-- A value passed to `useTransaction`: the underlying client value together
with the outcomes of the two runtime tests the source performs on it —
`prismaOrClient instanceof PrismaClient` and truthiness of its
`$transaction` property. -/
structure PrismaOrClient (κ : Type) where
  value : κ
  isPrismaInstance : Bool
  hasTransactionMethod : Bool

/-- Everything observable about one `useTransaction` call: its result, how
many new transactions were started, and which client value the exec body
received. -/
structure UseTransactionOutcome (κ τ : Type) where
  result : τ
  transactionsStarted : Nat
  execArg : κ

/-- The `useTransaction` function: when the argument passes the PrismaClient
instance check and has a `$transaction` method, run the exec inside a new
transaction via `$transaction` (which hands the body a transaction client
derived from the client, modelled by `txClientOf`) and return that
transaction's result; otherwise apply the exec directly to the argument. -/
def useTransaction (c : PrismaOrClient κ) (txClientOf : κ → κ)
    (exec : κ → τ) : UseTransactionOutcome κ τ :=
  if c.isPrismaInstance && c.hasTransactionMethod then
    { result := exec (txClientOf c.value), transactionsStarted := 1,
      execArg := txClientOf c.value }
  else
    { result := exec c.value, transactionsStarted := 0, execArg := c.value }

/-! ## Claim-side specifications and concrete instances -/

/-- The string `s` contains the string `t` as a (contiguous) substring. -/
def substrOf (t s : String) : Prop :=
  ∃ pre post, s.data = pre ++ t.data ++ post

/-- Claim-side reading of the target search: some string element of
`meta.target` contains some element of the target list as a substring. -/
def TargetArrayMatch (tv : JsVal) (targetList : List String) : Prop :=
  ∃ elems, tv = JsVal.arr elems ∧
    ∃ s, JsVal.str s ∈ elems ∧ ∃ t ∈ targetList, substrOf t s

/-- Claim-side reading of the field-name check: `meta.field_name` is a string
that contains some element of the target list as a substring. -/
def FieldNameMatch (fv : JsVal) (targetList : List String) : Prop :=
  ∃ s, fv = JsVal.str s ∧ ∃ t ∈ targetList, substrOf t s

/-- A known request error with code P2002 and no meta, passing every instance
check; the input on which the pattern variant of the classifier diverges. -/
def c1err : CaughtError :=
  { isErrorInstance := true, name := "PrismaClientKnownRequestError",
    isKnownRequestErrorStd := true, isKnownRequestErrorHelper := true,
    code := "P2002", meta := none,
    message := "Unique constraint failed on the fields: (`email`)" }

/-- A P2002 error whose meta carries a target array mentioning `email`. -/
def c4err : CaughtError :=
  { isErrorInstance := true, name := "PrismaClientKnownRequestError",
    isKnownRequestErrorStd := true, isKnownRequestErrorHelper := true,
    code := "P2002",
    meta := some { modelName := JsVal.str "User",
                   target := JsVal.arr [JsVal.str "email"],
                   field_name := JsVal.undef },
    message := "Unique constraint failed" }

/-- A record-not-found error used to instantiate C7. -/
def c7err : CaughtError :=
  { isErrorInstance := true, name := "PrismaClientKnownRequestError",
    isKnownRequestErrorStd := true, isKnownRequestErrorHelper := true,
    code := "P2025", meta := none, message := "Record not found" }

/-- A foreign-key error used to instantiate C8. -/
def c8err : CaughtError :=
  { isErrorInstance := true, name := "PrismaClientKnownRequestError",
    isKnownRequestErrorStd := true, isKnownRequestErrorHelper := true,
    code := "P2003",
    meta := some { modelName := JsVal.undef,
                   target := JsVal.undef,
                   field_name := JsVal.str "Post_authorId_fkey (index)" },
    message := "Foreign key constraint failed" }

/-- An exec registering two success handlers, the first of which throws. -/
def cexC2ex : WatcherExec Nat Nat :=
  { ops := [WatcherOp.regSuccess (fun _ => Except.error 7),
            WatcherOp.regSuccess (fun r => Except.ok r)],
    outcome := Except.ok 0 }

/-- Plain options around a unit client. -/
def cexC2opts : WatcherOptions Unit Nat Nat := { prisma := { txClient := () } }

/-- An exec registering one non-throwing success handler. -/
def cw2ex : WatcherExec Nat Nat :=
  { ops := [WatcherOp.regSuccess (fun x => Except.ok (x + 1))],
    outcome := Except.ok 5 }

/-- Plain options around a unit client, for the C2 witness. -/
def cw2opts : WatcherOptions Unit Nat Nat := { prisma := { txClient := () } }

/-- A client model and exec used to instantiate C3. -/
def c3p : PrismaClientModel Unit Nat Nat := { txClient := () }

/-- An exec with no registrations resolving to 1. -/
def c3ex : WatcherExec Nat Nat := { ops := [], outcome := Except.ok 1 }

/-- Options wrapping the C3 client model. -/
def c3opts : WatcherOptions Unit Nat Nat := { prisma := c3p }

/-- A manager exec resolving to 2. -/
def c3mex : ManagerExec Nat Nat := { ops := [], outcome := Except.ok 2 }

/-- Options and exec used to instantiate C5. -/
def c5opts : WatcherOptions Unit Nat Nat := { prisma := { txClient := () } }

/-- An exec with one error-handler registration resolving to 4. -/
def c5ex : WatcherExec Nat Nat :=
  { ops := [WatcherOp.regError (fun _ => Except.ok ())],
    outcome := Except.ok 4 }

/-- A fresh watcher on a unit client. -/
def c9w0 : TransactionWatcher Unit Nat Nat := TransactionWatcher.new ()

/-- A terminated watcher. -/
def c9wT : TransactionWatcher Unit Nat Nat := { client := (), isTerminated := true }

/-- A fresh manager. -/
def c9m0 : TransactionManager Unit Nat Nat := TransactionManager.new ()

/-- A terminated manager. -/
def c9mT : TransactionManager Unit Nat Nat := { client := (), isTerminated := true }

/-- An identity-style success handler. -/
def c9f : Nat → Except Nat Nat := fun r => Except.ok r

/-- A no-op error handler. -/
def c9g : TxErr Nat → Except Nat Unit := fun _ => Except.ok ()

/-- A no-op manager success handler. -/
def c9fm : Nat → Except Nat Unit := fun _ => Except.ok ()

/-- A fresh watcher reused as the existing watcher for C10. -/
def c10w : TransactionWatcher Unit Nat Nat := TransactionWatcher.new ()

/-- Options carrying the existing watcher. -/
def c10opts : WatcherOptions Unit Nat Nat :=
  { prisma := { txClient := () }, existingWatcher := some c10w }

/-- A registration-free exec resolving to 3. -/
def c10ex : WatcherExec Nat Nat := { ops := [], outcome := Except.ok 3 }

/-- A value recognized as a PrismaClient instance with $transaction present. -/
def c6client : PrismaOrClient Nat :=
  { value := 1, isPrismaInstance := true, hasTransactionMethod := true }

/-- A transaction client: fails the instance check. -/
def c6tx : PrismaOrClient Nat :=
  { value := 7, isPrismaInstance := false, hasTransactionMethod := false }

/-! ## Supporting lemmas and claim theorems -/

theorem charsPrefixOf_iff (p s : List Char) :
    charsPrefixOf p s = true ↔ ∃ t, s = p ++ t := by
  induction p generalizing s with
  | nil => simp [charsPrefixOf]
  | cons a as ih =>
    cases s with
    | nil => simp [charsPrefixOf]
    | cons b bs =>
      simp only [charsPrefixOf, Bool.and_eq_true, beq_iff_eq, ih, List.cons_append,
        List.cons.injEq]
      constructor
      · rintro ⟨hab, t, ht⟩
        exact ⟨t, hab.symm, ht⟩
      · rintro ⟨t, hba, ht⟩
        exact ⟨hba.symm, t, ht⟩

theorem charsInfixOf_iff (p s : List Char) :
    charsInfixOf p s = true ↔ ∃ pre post, s = pre ++ p ++ post := by
  induction s with
  | nil =>
    simp only [charsInfixOf, charsPrefixOf_iff]
    constructor
    · rintro ⟨t, ht⟩
      exact ⟨[], t, by simpa using ht⟩
    · rintro ⟨pre, post, h⟩
      rcases List.append_eq_nil.mp (List.append_eq_nil.mp h.symm).1 with ⟨-, hp⟩
      exact ⟨post, by simp [hp, (List.append_eq_nil.mp h.symm).2]⟩
  | cons c rest ih =>
    simp only [charsInfixOf, Bool.or_eq_true, charsPrefixOf_iff, ih]
    constructor
    · rintro (⟨t, ht⟩ | ⟨pre, post, h⟩)
      · exact ⟨[], t, by simpa using ht⟩
      · exact ⟨c :: pre, post, by simp [h]⟩
    · rintro ⟨pre, post, h⟩
      cases pre with
      | nil => exact Or.inl ⟨post, by simpa using h⟩
      | cons x xs =>
        simp only [List.cons_append, List.cons.injEq] at h
        exact Or.inr ⟨xs, post, h.2⟩

theorem strIncludes_iff (s t : String) : strIncludes s t = true ↔ substrOf t s :=
  charsInfixOf_iff t.data s.data

theorem targetArrayHit_iff (tv : JsVal) (tl : List String) :
    targetArrayHit tv tl = true ↔ TargetArrayMatch tv tl := by
  cases tv with
  | arr elems =>
    simp only [targetArrayHit, List.any_eq_true, TargetArrayMatch, JsVal.arr.injEq]
    constructor
    · rintro ⟨et, hmem, hmatch⟩
      cases et with
      | str s =>
        simp only [List.any_eq_true] at hmatch
        obtain ⟨t, htl, hinc⟩ := hmatch
        exact ⟨elems, rfl, s, hmem, t, htl, (strIncludes_iff s t).mp hinc⟩
      | num n => simp at hmatch
      | jsBool b => simp at hmatch
      | arr a => simp at hmatch
      | undef => simp at hmatch
    · rintro ⟨elems2, helems, s, hmem, t, htl, hsub⟩
      cases helems
      exact ⟨JsVal.str s, hmem, by
        simp only [List.any_eq_true]
        exact ⟨t, htl, (strIncludes_iff s t).mpr hsub⟩⟩
  | str s => simp [targetArrayHit, TargetArrayMatch]
  | num n => simp [targetArrayHit, TargetArrayMatch]
  | jsBool b => simp [targetArrayHit, TargetArrayMatch]
  | undef => simp [targetArrayHit, TargetArrayMatch]

theorem fieldNameHit_iff (fv : JsVal) (tl : List String) :
    fieldNameHit fv tl = true ↔ FieldNameMatch fv tl := by
  cases fv with
  | str s =>
    simp only [fieldNameHit, List.any_eq_true, FieldNameMatch, JsVal.str.injEq]
    constructor
    · rintro ⟨t, htl, hinc⟩
      exact ⟨s, rfl, t, htl, (strIncludes_iff s t).mp hinc⟩
    · rintro ⟨s2, hs2, t, htl, hsub⟩
      cases hs2
      exact ⟨t, htl, (strIncludes_iff s t).mpr hsub⟩
  | arr elems => simp [fieldNameHit, FieldNameMatch]
  | num n => simp [fieldNameHit, FieldNameMatch]
  | jsBool b => simp [fieldNameHit, FieldNameMatch]
  | undef => simp [fieldNameHit, FieldNameMatch]

theorem runWatcherOps_not_terminated (ops : List (WatcherOp ρ ε)) :
    ∀ (w : TransactionWatcher κ ρ ε), w.isTerminated = false →
    runWatcherOps w ops =
      ({ w with successHandlers := w.successHandlers ++ regSuccessOf ops,
                errorHandlers := w.errorHandlers ++ regErrorOf ops }, none) := by
  induction ops with
  | nil =>
    intro w hw
    simp [runWatcherOps, regSuccessOf, regErrorOf]
  | cons op rest ih =>
    intro w hw
    cases op with
    | regSuccess h =>
      rw [runWatcherOps]
      simp only [applyWatcherOp, TransactionWatcher.onSuccess, hw, Bool.false_eq_true,
        if_false]
      rw [ih _ rfl]
      simp [regSuccessOf, regErrorOf, List.append_assoc]
    | regError h =>
      rw [runWatcherOps]
      simp only [applyWatcherOp, TransactionWatcher.onError, hw, Bool.false_eq_true,
        if_false]
      rw [ih _ rfl]
      simp [regSuccessOf, regErrorOf, List.append_assoc]

theorem runWatcherExec_new (ex : WatcherExec ρ ε) (c : κ) :
    runWatcherExec ex (TransactionWatcher.new c) =
      ({ client := c, successHandlers := regSuccessOf ex.ops,
         errorHandlers := regErrorOf ex.ops, isTerminated := false },
       liftUserErr ex.outcome) := by
  unfold runWatcherExec
  rw [runWatcherOps_not_terminated ex.ops (TransactionWatcher.new c) rfl]
  simp [TransactionWatcher.new]

theorem runManagerOps_not_terminated (ops : List (ManagerOp ρ ε)) :
    ∀ (m : TransactionManager κ ρ ε), m.isTerminated = false →
    runManagerOps m ops =
      ({ m with successHandlers := m.successHandlers ++ mRegSuccessOf ops,
                errorHandlers := m.errorHandlers ++ mRegErrorOf ops }, none) := by
  induction ops with
  | nil =>
    intro m hm
    simp [runManagerOps, mRegSuccessOf, mRegErrorOf]
  | cons op rest ih =>
    intro m hm
    cases op with
    | regSuccess h =>
      rw [runManagerOps]
      simp only [applyManagerOp, TransactionManager.onSuccess, hm, Bool.false_eq_true,
        if_false]
      rw [ih _ rfl]
      simp [mRegSuccessOf, mRegErrorOf, List.append_assoc]
    | regError h =>
      rw [runManagerOps]
      simp only [applyManagerOp, TransactionManager.onError, hm, Bool.false_eq_true,
        if_false]
      rw [ih _ rfl]
      simp [mRegSuccessOf, mRegErrorOf, List.append_assoc]

theorem runManagerExec_new (ex : ManagerExec ρ ε) (c : κ) :
    runManagerExec ex (TransactionManager.new c) =
      ({ client := c, successHandlers := mRegSuccessOf ex.ops,
         errorHandlers := mRegErrorOf ex.ops, isTerminated := false },
       liftUserErr ex.outcome) := by
  unfold runManagerExec
  rw [runManagerOps_not_terminated ex.ops (TransactionManager.new c) rfl]
  simp [TransactionManager.new]

theorem runSuccessChain_map_prefix (hs : List (ρ → Except ε ρ)) (r : ρ) :
    ∃ rest, (runSuccessChain hs r).1.map Prod.fst ++ rest = hs := by
  induction hs generalizing r with
  | nil => exact ⟨[], rfl⟩
  | cons h t ih =>
    cases hh : h r with
    | ok r2 =>
      obtain ⟨rest, hrest⟩ := ih r2
      exact ⟨rest, by simp [runSuccessChain, hh, hrest]⟩
    | error e =>
      exact ⟨t, by simp [runSuccessChain, hh]⟩

theorem runSuccessChain_total (hs : List (ρ → Except ε ρ))
    (hall : ∀ h ∈ hs, ∀ x, ∃ y, h x = Except.ok y) (r : ρ) :
    (runSuccessChain hs r).1.map Prod.fst = hs ∧ (runSuccessChain hs r).2 = none := by
  induction hs generalizing r with
  | nil => exact ⟨rfl, rfl⟩
  | cons h t ih =>
    obtain ⟨y, hy⟩ := hall h (List.mem_cons_self h t) r
    have ihh := ih (fun g hg x => hall g (List.mem_cons_of_mem h hg) x) y
    refine ⟨?_, ?_⟩ <;> simp [runSuccessChain, hy, ihh.1, ihh.2]

theorem runHandlerSeq_map_prefix (hs : List (α → Except ε Unit)) (a : α) :
    ∃ rest, (runHandlerSeq hs a).1.map Prod.fst ++ rest = hs := by
  induction hs with
  | nil => exact ⟨[], rfl⟩
  | cons h t ih =>
    cases hh : h a with
    | ok u =>
      obtain ⟨rest, hrest⟩ := ih
      exact ⟨rest, by simp [runHandlerSeq, hh, hrest]⟩
    | error e =>
      exact ⟨t, by simp [runHandlerSeq, hh]⟩

theorem runHandlerSeq_total (hs : List (α → Except ε Unit))
    (hall : ∀ h ∈ hs, ∀ x, ∃ y, h x = Except.ok y) (a : α) :
    (runHandlerSeq hs a).1.map Prod.fst = hs ∧ (runHandlerSeq hs a).2 = none := by
  induction hs with
  | nil => exact ⟨rfl, rfl⟩
  | cons h t ih =>
    obtain ⟨y, hy⟩ := hall h (List.mem_cons_self h t) a
    have ihh := ih (fun g hg x => hall g (List.mem_cons_of_mem h hg) x)
    refine ⟨?_, ?_⟩ <;> simp [runHandlerSeq, hy, ihh.1, ihh.2]

theorem runHandlerSeq_arg (hs : List (α → Except ε Unit)) (a : α) :
    ∀ pr ∈ (runHandlerSeq hs a).1, pr.2 = a := by
  induction hs with
  | nil =>
    intro pr hpr
    simp [runHandlerSeq] at hpr
  | cons h t ih =>
    intro pr hpr
    cases hh : h a with
    | ok u =>
      simp only [runHandlerSeq, hh, List.mem_cons] at hpr
      rcases hpr with rfl | hpr
      · rfl
      · exact ih pr hpr
    | error e =>
      simp only [runHandlerSeq, hh, List.mem_singleton] at hpr
      rw [hpr]

theorem watchedTransaction_preFail (opts : WatcherOptions κ ρ ε)
    (ex : WatcherExec ρ ε) (e : TxErr ε)
    (hex : opts.existingWatcher = none) (hpre : opts.prisma.preFail = some e) :
    watchedTransaction opts ex =
      { result := Except.error e, transactionsStarted := 1,
        firedSuccess := [], firedError := [],
        loggedSuccess := none, loggedError := none,
        finalWatcher := none } := by
  unfold watchedTransaction dollarTransactionWatcher
  rw [hex, hpre]

theorem watchedTransaction_fresh_ok (opts : WatcherOptions κ ρ ε)
    (ex : WatcherExec ρ ε) (r : ρ)
    (hex : opts.existingWatcher = none) (hpre : opts.prisma.preFail = none)
    (hpost : opts.prisma.postFail = none) (hout : ex.outcome = Except.ok r) :
    watchedTransaction opts ex =
      { result := Except.ok r, transactionsStarted := 1,
        firedSuccess := (runSuccessChain (regSuccessOf ex.ops) r).1,
        firedError := [],
        loggedSuccess := ((runSuccessChain (regSuccessOf ex.ops) r).2).map
          (fun e => (opts.successHandlerErrorLogger, e)),
        loggedError := none,
        finalWatcher := some { client := opts.prisma.txClient,
                               successHandlers := regSuccessOf ex.ops,
                               errorHandlers := regErrorOf ex.ops,
                               isTerminated := true } } := by
  unfold watchedTransaction dollarTransactionWatcher
  rw [hex, hpre, runWatcherExec_new, hout, hpost]
  simp [TransactionWatcher.fireSuccess, liftUserErr]

theorem watchedTransaction_fresh_postFail (opts : WatcherOptions κ ρ ε)
    (ex : WatcherExec ρ ε) (r : ρ) (pe : TxErr ε)
    (hex : opts.existingWatcher = none) (hpre : opts.prisma.preFail = none)
    (hpost : opts.prisma.postFail = some pe) (hout : ex.outcome = Except.ok r) :
    watchedTransaction opts ex =
      { result := Except.error pe, transactionsStarted := 1,
        firedSuccess := [],
        firedError := (runHandlerSeq (regErrorOf ex.ops) pe).1,
        loggedSuccess := none,
        loggedError := ((runHandlerSeq (regErrorOf ex.ops) pe).2).map
          (fun e2 => (opts.errorHandlerErrorLogger, e2)),
        finalWatcher := some { client := opts.prisma.txClient,
                               successHandlers := regSuccessOf ex.ops,
                               errorHandlers := regErrorOf ex.ops,
                               isTerminated := true } } := by
  unfold watchedTransaction dollarTransactionWatcher
  rw [hex, hpre, runWatcherExec_new, hout, hpost]
  simp [TransactionWatcher.fireError, liftUserErr]

theorem watchedTransaction_fresh_userErr (opts : WatcherOptions κ ρ ε)
    (ex : WatcherExec ρ ε) (e : ε)
    (hex : opts.existingWatcher = none) (hpre : opts.prisma.preFail = none)
    (hout : ex.outcome = Except.error e) :
    watchedTransaction opts ex =
      { result := Except.error (TxErr.user e), transactionsStarted := 1,
        firedSuccess := [],
        firedError := (runHandlerSeq (regErrorOf ex.ops) (TxErr.user e)).1,
        loggedSuccess := none,
        loggedError := ((runHandlerSeq (regErrorOf ex.ops) (TxErr.user e)).2).map
          (fun e2 => (opts.errorHandlerErrorLogger, e2)),
        finalWatcher := some { client := opts.prisma.txClient,
                               successHandlers := regSuccessOf ex.ops,
                               errorHandlers := regErrorOf ex.ops,
                               isTerminated := true } } := by
  unfold watchedTransaction dollarTransactionWatcher
  rw [hex, hpre, runWatcherExec_new, hout]
  simp [TransactionWatcher.fireError, liftUserErr]

theorem useTransactionManager_preFail (p : PrismaClientModel κ ρ ε)
    (ex : ManagerExec ρ ε) (mo : ManagerOptions) (e : TxErr ε)
    (hpre : p.preFail = some e) :
    useTransactionManager p ex mo =
      { result := Except.error e, transactionsStarted := 1,
        firedSuccess := [], firedError := [],
        loggedSuccess := none, loggedError := none,
        finalManager := none } := by
  unfold useTransactionManager dollarTransactionManager
  rw [hpre]

theorem useTransactionManager_fresh_ok (p : PrismaClientModel κ ρ ε)
    (ex : ManagerExec ρ ε) (mo : ManagerOptions) (r : ρ)
    (hpre : p.preFail = none) (hpost : p.postFail = none)
    (hout : ex.outcome = Except.ok r) :
    useTransactionManager p ex mo =
      { result := Except.ok r, transactionsStarted := 1,
        firedSuccess := (runHandlerSeq (mRegSuccessOf ex.ops) r).1,
        firedError := [],
        loggedSuccess := ((runHandlerSeq (mRegSuccessOf ex.ops) r).2).map
          (fun e => (mo.successHandlerErrorLogger, e)),
        loggedError := none,
        finalManager := some { client := p.txClient,
                               successHandlers := mRegSuccessOf ex.ops,
                               errorHandlers := mRegErrorOf ex.ops,
                               isTerminated := true } } := by
  unfold useTransactionManager dollarTransactionManager
  rw [hpre, runManagerExec_new, hout, hpost]
  simp [TransactionManager.fireSuccess, liftUserErr]

theorem useTransactionManager_fresh_postFail (p : PrismaClientModel κ ρ ε)
    (ex : ManagerExec ρ ε) (mo : ManagerOptions) (r : ρ) (pe : TxErr ε)
    (hpre : p.preFail = none) (hpost : p.postFail = some pe)
    (hout : ex.outcome = Except.ok r) :
    useTransactionManager p ex mo =
      { result := Except.error pe, transactionsStarted := 1,
        firedSuccess := [],
        firedError := (runHandlerSeq (mRegErrorOf ex.ops) pe).1,
        loggedSuccess := none,
        loggedError := ((runHandlerSeq (mRegErrorOf ex.ops) pe).2).map
          (fun e2 => (mo.errorHandlerErrorLogger, e2)),
        finalManager := some { client := p.txClient,
                               successHandlers := mRegSuccessOf ex.ops,
                               errorHandlers := mRegErrorOf ex.ops,
                               isTerminated := true } } := by
  unfold useTransactionManager dollarTransactionManager
  rw [hpre, runManagerExec_new, hout, hpost]
  simp [TransactionManager.fireError, liftUserErr]

theorem useTransactionManager_fresh_userErr (p : PrismaClientModel κ ρ ε)
    (ex : ManagerExec ρ ε) (mo : ManagerOptions) (e : ε)
    (hpre : p.preFail = none) (hout : ex.outcome = Except.error e) :
    useTransactionManager p ex mo =
      { result := Except.error (TxErr.user e), transactionsStarted := 1,
        firedSuccess := [],
        firedError := (runHandlerSeq (mRegErrorOf ex.ops) (TxErr.user e)).1,
        loggedSuccess := none,
        loggedError := ((runHandlerSeq (mRegErrorOf ex.ops) (TxErr.user e)).2).map
          (fun e2 => (mo.errorHandlerErrorLogger, e2)),
        finalManager := some { client := p.txClient,
                               successHandlers := mRegSuccessOf ex.ops,
                               errorHandlers := mRegErrorOf ex.ops,
                               isTerminated := true } } := by
  unfold useTransactionManager dollarTransactionManager
  rw [hpre, runManagerExec_new, hout]
  simp [TransactionManager.fireError, liftUserErr]

/-- C1: for a known request error with matching code and no optional filters,
the standalone isPrismaError and the target-list helper method return true as
the claim states; the pattern-based PrismaHelper.isPrismaError method returns
false on the very same input, falling through to its final `return false`,
contradicting its own documentation. Non-matching code or a failed instance
check yield false as claimed. -/
theorem claim_C1 :
    isPrismaError c1err "P2002" none none = true ∧
    helperIsPrismaError c1err "P2002" none none = true ∧
    helperIsPrismaErrorPatterns c1err "P2002" none none = false ∧
    isPrismaError { c1err with code := "P2001" } "P2002" none none = false ∧
    isPrismaError { c1err with isKnownRequestErrorStd := false } "P2002" none none = false := by
  refine ⟨rfl, rfl, rfl, ?_, rfl⟩
  decide

/-- C4: for a known request error with matching code, a supplied non-empty
model name that differs from `meta.modelName` forces false; otherwise, with a
non-empty target list, the classifier returns true exactly when some string
element of `meta.target` contains some listed target as a substring, or
`meta.field_name` is a string containing some listed target as a substring.
Proved for the standalone function and the target-list helper method. -/
theorem claim_C4 (e : CaughtError) (ec : String) (tl : List String)
    (mn : Option String)
    (hstd : e.isKnownRequestErrorStd = true)
    (hhelper : e.isKnownRequestErrorHelper = true)
    (hcode : e.code = ec) :
    (∀ m, mn = some m → m ≠ "" → metaModelName e ≠ JsVal.str m →
        isPrismaError e ec (some tl) mn = false ∧
        helperIsPrismaError e ec (some tl) mn = false) ∧
    ((∀ m, mn = some m → m ≠ "" → metaModelName e = JsVal.str m) → tl ≠ [] →
        ((isPrismaError e ec (some tl) mn = true ↔
            TargetArrayMatch (metaTarget e) tl ∨ FieldNameMatch (metaFieldName e) tl) ∧
         (helperIsPrismaError e ec (some tl) mn = true ↔
            TargetArrayMatch (metaTarget e) tl ∨ FieldNameMatch (metaFieldName e) tl))) := by
  subst hcode
  constructor
  · intro m hm hne hneq
    subst hm
    have hmm : modelNameMismatch e (some m) = true := by
      simp only [modelNameMismatch, Bool.and_eq_true, Bool.not_eq_true',
        beq_eq_false_iff_ne, ne_eq]
      exact ⟨hne, hneq⟩
    constructor
    · simp [isPrismaError, hstd, hmm]
    · simp [helperIsPrismaError, hhelper, hmm]
  · intro hok htl
    have hmm : modelNameMismatch e mn = false := by
      cases mn with
      | none => rfl
      | some m =>
        by_cases hm : m = ""
        · simp [modelNameMismatch, hm]
        · have hmodel := hok m rfl hm
          simp [modelNameMismatch, hmodel]
    have habs : targetListAbsent (some tl) = false := by
      cases tl with
      | nil => exact absurd rfl htl
      | cons a l => rfl
    constructor
    · simp [isPrismaError, hstd, hmm, habs, Bool.or_eq_true,
        targetArrayHit_iff, fieldNameHit_iff]
    · simp [helperIsPrismaError, hhelper, hmm, habs, Bool.or_eq_true,
        targetArrayHit_iff, fieldNameHit_iff]

/-- Witness for C4 at a concrete error and target list. -/
theorem claim_C4_witness :
    isPrismaError c4err "P2002" (some ["email"]) none = true := by
  have h := (claim_C4 c4err "P2002" ["email"] none rfl rfl rfl).2
    (fun m hm => Option.noConfusion hm) (List.cons_ne_nil _ _)
  exact h.1.mpr (Or.inl ⟨[JsVal.str "email"], rfl, "email", by simp,
    "email", by simp, ⟨[], [], by simp⟩⟩)

/-- C7: the classifier is deterministic — equal arguments give equal results.
In this pure embedding the function cannot modify its arguments, so the
non-mutation half of the claim holds by construction. -/
theorem claim_C7 (e1 e2 : CaughtError) (ec1 ec2 : String)
    (tl1 tl2 : Option (List String)) (mn1 mn2 : Option String)
    (he : e1 = e2) (hec : ec1 = ec2) (htl : tl1 = tl2) (hmn : mn1 = mn2) :
    isPrismaError e1 ec1 tl1 mn1 = isPrismaError e2 ec2 tl2 mn2 := by
  rw [he, hec, htl, hmn]

/-- Witness for C7 at a concrete input. -/
theorem claim_C7_witness :
    isPrismaError c7err "P2025" none none = isPrismaError c7err "P2025" none none :=
  claim_C7 c7err c7err "P2025" "P2025" none none none none rfl rfl rfl rfl

/-- C8: when the two instance checks agree on the caught value, the standalone
isPrismaError and the target-list PrismaHelper.isPrismaError method return
the same boolean on every input. -/
theorem claim_C8 (e : CaughtError) (ec : String) (tl : Option (List String))
    (mn : Option String)
    (h : e.isKnownRequestErrorStd = e.isKnownRequestErrorHelper) :
    isPrismaError e ec tl mn = helperIsPrismaError e ec tl mn := by
  unfold isPrismaError helperIsPrismaError
  rw [h]
  cases hb : e.isKnownRequestErrorHelper <;>
    cases hc : (e.code != ec) <;> simp [hb, hc]

/-- Witness for C8 at a concrete input. -/
theorem claim_C8_witness :
    isPrismaError c8err "P2003" (some ["authorId"]) none =
      helperIsPrismaError c8err "P2003" (some ["authorId"]) none :=
  claim_C8 c8err "P2003" (some ["authorId"]) none rfl

/-- C2 (amended): after the wrapped transaction settles, only the matching
handler list fires, in registration order, as a prefix of the registered
handlers that is the whole list whenever no handler throws; a throwing
handler stops the rest of its list. Error handlers each receive the rejection
error. Stated for watchedTransaction (success, body-error and commit-error
paths) and for useTransactionManager. -/
theorem claim_C2 :
    (∀ (κ ρ ε : Type) (opts : WatcherOptions κ ρ ε) (ex : WatcherExec ρ ε) (r : ρ),
      opts.existingWatcher = none → opts.prisma.preFail = none →
      opts.prisma.postFail = none → ex.outcome = Except.ok r →
      (watchedTransaction opts ex).result = Except.ok r ∧
      (watchedTransaction opts ex).firedError = [] ∧
      (∃ rest, (watchedTransaction opts ex).firedSuccess.map Prod.fst ++ rest
          = regSuccessOf ex.ops) ∧
      ((∀ h ∈ regSuccessOf ex.ops, ∀ x, ∃ y, h x = Except.ok y) →
        (watchedTransaction opts ex).firedSuccess.map Prod.fst = regSuccessOf ex.ops)) ∧
    (∀ (κ ρ ε : Type) (opts : WatcherOptions κ ρ ε) (ex : WatcherExec ρ ε) (e : ε),
      opts.existingWatcher = none → opts.prisma.preFail = none →
      ex.outcome = Except.error e →
      (watchedTransaction opts ex).result = Except.error (TxErr.user e) ∧
      (watchedTransaction opts ex).firedSuccess = [] ∧
      (∃ rest, (watchedTransaction opts ex).firedError.map Prod.fst ++ rest
          = regErrorOf ex.ops) ∧
      (∀ pr ∈ (watchedTransaction opts ex).firedError, pr.2 = TxErr.user e) ∧
      ((∀ h ∈ regErrorOf ex.ops, ∀ x, ∃ y, h x = Except.ok y) →
        (watchedTransaction opts ex).firedError.map Prod.fst = regErrorOf ex.ops)) ∧
    (∀ (κ ρ ε : Type) (opts : WatcherOptions κ ρ ε) (ex : WatcherExec ρ ε)
        (r : ρ) (pe : TxErr ε),
      opts.existingWatcher = none → opts.prisma.preFail = none →
      opts.prisma.postFail = some pe → ex.outcome = Except.ok r →
      (watchedTransaction opts ex).result = Except.error pe ∧
      (watchedTransaction opts ex).firedSuccess = [] ∧
      (∀ pr ∈ (watchedTransaction opts ex).firedError, pr.2 = pe) ∧
      ((∀ h ∈ regErrorOf ex.ops, ∀ x, ∃ y, h x = Except.ok y) →
        (watchedTransaction opts ex).firedError.map Prod.fst = regErrorOf ex.ops)) ∧
    (∀ (κ ρ ε : Type) (p : PrismaClientModel κ ρ ε) (ex : ManagerExec ρ ε)
        (mo : ManagerOptions) (r : ρ),
      p.preFail = none → p.postFail = none → ex.outcome = Except.ok r →
      (useTransactionManager p ex mo).result = Except.ok r ∧
      (useTransactionManager p ex mo).firedError = [] ∧
      (∃ rest, (useTransactionManager p ex mo).firedSuccess.map Prod.fst ++ rest
          = mRegSuccessOf ex.ops) ∧
      (∀ pr ∈ (useTransactionManager p ex mo).firedSuccess, pr.2 = r) ∧
      ((∀ h ∈ mRegSuccessOf ex.ops, ∀ x, ∃ y, h x = Except.ok y) →
        (useTransactionManager p ex mo).firedSuccess.map Prod.fst
          = mRegSuccessOf ex.ops)) ∧
    (∀ (κ ρ ε : Type) (p : PrismaClientModel κ ρ ε) (ex : ManagerExec ρ ε)
        (mo : ManagerOptions) (e : ε),
      p.preFail = none → ex.outcome = Except.error e →
      (useTransactionManager p ex mo).result = Except.error (TxErr.user e) ∧
      (useTransactionManager p ex mo).firedSuccess = [] ∧
      (∃ rest, (useTransactionManager p ex mo).firedError.map Prod.fst ++ rest
          = mRegErrorOf ex.ops) ∧
      (∀ pr ∈ (useTransactionManager p ex mo).firedError, pr.2 = TxErr.user e) ∧
      ((∀ h ∈ mRegErrorOf ex.ops, ∀ x, ∃ y, h x = Except.ok y) →
        (useTransactionManager p ex mo).firedError.map Prod.fst
          = mRegErrorOf ex.ops)) := by
  refine ⟨?_, ?_, ?_, ?_, ?_⟩
  · intro κ ρ ε opts ex r hex hpre hpost hout
    rw [watchedTransaction_fresh_ok opts ex r hex hpre hpost hout]
    exact ⟨rfl, rfl, runSuccessChain_map_prefix _ r,
      fun hall => (runSuccessChain_total _ hall r).1⟩
  · intro κ ρ ε opts ex e hex hpre hout
    rw [watchedTransaction_fresh_userErr opts ex e hex hpre hout]
    exact ⟨rfl, rfl, runHandlerSeq_map_prefix _ _, runHandlerSeq_arg _ _,
      fun hall => (runHandlerSeq_total _ hall _).1⟩
  · intro κ ρ ε opts ex r pe hex hpre hpost hout
    rw [watchedTransaction_fresh_postFail opts ex r pe hex hpre hpost hout]
    exact ⟨rfl, rfl, runHandlerSeq_arg _ _,
      fun hall => (runHandlerSeq_total _ hall _).1⟩
  · intro κ ρ ε p ex mo r hpre hpost hout
    rw [useTransactionManager_fresh_ok p ex mo r hpre hpost hout]
    exact ⟨rfl, rfl, runHandlerSeq_map_prefix _ _, runHandlerSeq_arg _ _,
      fun hall => (runHandlerSeq_total _ hall _).1⟩
  · intro κ ρ ε p ex mo e hpre hout
    rw [useTransactionManager_fresh_userErr p ex mo e hpre hout]
    exact ⟨rfl, rfl, runHandlerSeq_map_prefix _ _, runHandlerSeq_arg _ _,
      fun hall => (runHandlerSeq_total _ hall _).1⟩

/-- C2 counterexample: the wrapped transaction resolves (result ok 0), the
exec registered two handlers via onSuccess, yet only one of them runs — the
first throws and stops the loop, so it is not the case that exactly the
registered success handlers run. -/
theorem claim_C2_counterexample :
    (watchedTransaction cexC2opts cexC2ex).result = Except.ok 0 ∧
    (regSuccessOf cexC2ex.ops).length = 2 ∧
    (watchedTransaction cexC2opts cexC2ex).firedSuccess.length = 1 :=
  ⟨rfl, rfl, rfl⟩

/-- Witness for C2 at a concrete non-throwing exec. -/
theorem claim_C2_witness :
    (watchedTransaction cw2opts cw2ex).firedSuccess.map Prod.fst
      = regSuccessOf cw2ex.ops ∧
    (watchedTransaction cw2opts cw2ex).firedError = [] := by
  have h := claim_C2.1 Unit Nat Nat cw2opts cw2ex 5 rfl rfl rfl rfl
  refine ⟨h.2.2.2 ?_, h.2.1⟩
  intro f hf x
  simp only [cw2ex, regSuccessOf, List.mem_singleton] at hf
  subst hf
  exact ⟨x + 1, rfl⟩

/-- C3: watchedTransaction (without an existing watcher) and
useTransactionManager settle with exactly the settle value of the wrapped
transaction — handler return values and handler errors never change it; an
error thrown by a fired handler is delivered to the configured logger, which
defaults to console.error. -/
theorem claim_C3 :
    (∀ (κ ρ ε : Type) (opts : WatcherOptions κ ρ ε) (ex : WatcherExec ρ ε),
      opts.existingWatcher = none →
      (watchedTransaction opts ex).result = (dollarTransactionWatcher opts.prisma ex).2) ∧
    (∀ (κ ρ ε : Type) (p : PrismaClientModel κ ρ ε) (ex : ManagerExec ρ ε)
        (mo : ManagerOptions),
      (useTransactionManager p ex mo).result = (dollarTransactionManager p ex).2) ∧
    (∀ (κ ρ ε : Type) (opts : WatcherOptions κ ρ ε) (ex : WatcherExec ρ ε)
        (r : ρ) (e2 : ε),
      opts.existingWatcher = none → opts.prisma.preFail = none →
      opts.prisma.postFail = none → ex.outcome = Except.ok r →
      (runSuccessChain (regSuccessOf ex.ops) r).2 = some e2 →
      (watchedTransaction opts ex).loggedSuccess
        = some (opts.successHandlerErrorLogger, e2) ∧
      (watchedTransaction opts ex).result = Except.ok r) ∧
    (∀ (κ ρ ε : Type) (opts : WatcherOptions κ ρ ε) (ex : WatcherExec ρ ε)
        (e : ε) (e2 : ε),
      opts.existingWatcher = none → opts.prisma.preFail = none →
      ex.outcome = Except.error e →
      (runHandlerSeq (regErrorOf ex.ops) (TxErr.user e)).2 = some e2 →
      (watchedTransaction opts ex).loggedError
        = some (opts.errorHandlerErrorLogger, e2) ∧
      (watchedTransaction opts ex).result = Except.error (TxErr.user e)) ∧
    (∀ (κ ρ ε : Type) (p : PrismaClientModel κ ρ ε) (ex : ManagerExec ρ ε)
        (mo : ManagerOptions) (r : ρ) (e2 : ε),
      p.preFail = none → p.postFail = none → ex.outcome = Except.ok r →
      (runHandlerSeq (mRegSuccessOf ex.ops) r).2 = some e2 →
      (useTransactionManager p ex mo).loggedSuccess
        = some (mo.successHandlerErrorLogger, e2) ∧
      (useTransactionManager p ex mo).result = Except.ok r) ∧
    (∀ (κ ρ ε : Type) (p : PrismaClientModel κ ρ ε),
      ({ prisma := p } : WatcherOptions κ ρ ε).successHandlerErrorLogger = consoleError ∧
      ({ prisma := p } : WatcherOptions κ ρ ε).errorHandlerErrorLogger = consoleError ∧
      ({} : ManagerOptions).successHandlerErrorLogger = consoleError ∧
      ({} : ManagerOptions).errorHandlerErrorLogger = consoleError) := by
  refine ⟨?_, ?_, ?_, ?_, ?_, ?_⟩
  · intro κ ρ ε opts ex hex
    unfold watchedTransaction
    rw [hex]
    rcases hd : dollarTransactionWatcher opts.prisma ex with ⟨ow, res⟩
    cases ow with
    | none => rfl
    | some w1 =>
      cases res with
      | ok r => rfl
      | error e => rfl
  · intro κ ρ ε p ex mo
    unfold useTransactionManager
    rcases hd : dollarTransactionManager p ex with ⟨om, res⟩
    cases om with
    | none => rfl
    | some m1 =>
      cases res with
      | ok r => rfl
      | error e => rfl
  · intro κ ρ ε opts ex r e2 hex hpre hpost hout hchain
    rw [watchedTransaction_fresh_ok opts ex r hex hpre hpost hout]
    refine ⟨?_, rfl⟩
    show ((runSuccessChain (regSuccessOf ex.ops) r).2).map
        (fun e => (opts.successHandlerErrorLogger, e)) = _
    rw [hchain]
    rfl
  · intro κ ρ ε opts ex e e2 hex hpre hout hseq
    rw [watchedTransaction_fresh_userErr opts ex e hex hpre hout]
    refine ⟨?_, rfl⟩
    show ((runHandlerSeq (regErrorOf ex.ops) (TxErr.user e)).2).map
        (fun x => (opts.errorHandlerErrorLogger, x)) = _
    rw [hseq]
    rfl
  · intro κ ρ ε p ex mo r e2 hpre hpost hout hseq
    rw [useTransactionManager_fresh_ok p ex mo r hpre hpost hout]
    refine ⟨?_, rfl⟩
    show ((runHandlerSeq (mRegSuccessOf ex.ops) r).2).map
        (fun e => (mo.successHandlerErrorLogger, e)) = _
    rw [hseq]
    rfl
  · intro κ ρ ε p
    exact ⟨rfl, rfl, rfl, rfl⟩

/-- Witness for C3 at concrete inputs. -/
theorem claim_C3_witness :
    (watchedTransaction c3opts c3ex).result
      = (dollarTransactionWatcher c3opts.prisma c3ex).2 ∧
    (useTransactionManager c3p c3mex {}).result
      = (dollarTransactionManager c3p c3mex).2 :=
  ⟨claim_C3.1 Unit Nat Nat c3opts c3ex rfl,
   claim_C3.2.1 Unit Nat Nat c3p c3mex {}⟩

/-- C5: the terminated flag is false at construction, is preserved by every
successful handler registration (hence stays false for the whole exec body),
is set to true by the keyed settle methods — which change nothing but the
flag, so it is already true when the handlers run — and is true in the final
watcher/manager state left by a watchedTransaction or useTransactionManager
call whose transaction body ran. -/
theorem claim_C5 :
    (∀ (κ ρ ε : Type) (c : κ),
      (TransactionWatcher.new c : TransactionWatcher κ ρ ε).isTerminated = false ∧
      (TransactionManager.new c : TransactionManager κ ρ ε).isTerminated = false) ∧
    (∀ (κ ρ ε : Type) (w : TransactionWatcher κ ρ ε) (h : ρ → Except ε ρ) (w2),
      w.onSuccess h = Except.ok w2 → w2.isTerminated = w.isTerminated) ∧
    (∀ (κ ρ ε : Type) (w : TransactionWatcher κ ρ ε)
        (h : TxErr ε → Except ε Unit) (w2),
      w.onError h = Except.ok w2 → w2.isTerminated = w.isTerminated) ∧
    (∀ (κ ρ ε : Type) (m : TransactionManager κ ρ ε) (h : ρ → Except ε Unit) (m2),
      m.onSuccess h = Except.ok m2 → m2.isTerminated = m.isTerminated) ∧
    (∀ (κ ρ ε : Type) (m : TransactionManager κ ρ ε)
        (h : TxErr ε → Except ε Unit) (m2),
      m.onError h = Except.ok m2 → m2.isTerminated = m.isTerminated) ∧
    (∀ (κ ρ ε : Type) (ops : List (WatcherOp ρ ε)) (w : TransactionWatcher κ ρ ε),
      w.isTerminated = false → (runWatcherOps w ops).1.isTerminated = false) ∧
    (∀ (κ ρ ε : Type) (ops : List (ManagerOp ρ ε)) (m : TransactionManager κ ρ ε),
      m.isTerminated = false → (runManagerOps m ops).1.isTerminated = false) ∧
    (∀ (κ ρ ε : Type) (w : TransactionWatcher κ ρ ε) (r : ρ),
      (w.fireSuccess r).1 = { w with isTerminated := true }) ∧
    (∀ (κ ρ ε : Type) (w : TransactionWatcher κ ρ ε) (e : TxErr ε),
      (w.fireError e).1 = { w with isTerminated := true }) ∧
    (∀ (κ ρ ε : Type) (m : TransactionManager κ ρ ε) (r : ρ),
      (m.fireSuccess r).1 = { m with isTerminated := true }) ∧
    (∀ (κ ρ ε : Type) (m : TransactionManager κ ρ ε) (e : TxErr ε),
      (m.fireError e).1 = { m with isTerminated := true }) ∧
    (∀ (κ ρ ε : Type) (opts : WatcherOptions κ ρ ε) (ex : WatcherExec ρ ε),
      opts.existingWatcher = none → opts.prisma.preFail = none →
      ∃ w2, (watchedTransaction opts ex).finalWatcher = some w2 ∧
        w2.isTerminated = true) ∧
    (∀ (κ ρ ε : Type) (p : PrismaClientModel κ ρ ε) (ex : ManagerExec ρ ε)
        (mo : ManagerOptions),
      p.preFail = none →
      ∃ m2, (useTransactionManager p ex mo).finalManager = some m2 ∧
        m2.isTerminated = true) := by
  refine ⟨fun κ ρ ε c => ⟨rfl, rfl⟩, ?_, ?_, ?_, ?_, ?_, ?_,
    fun κ ρ ε w r => rfl, fun κ ρ ε w e => rfl,
    fun κ ρ ε m r => rfl, fun κ ρ ε m e => rfl, ?_, ?_⟩
  · intro κ ρ ε w h w2 hok
    unfold TransactionWatcher.onSuccess at hok
    by_cases ht : w.isTerminated = true
    · rw [if_pos ht] at hok
      exact Except.noConfusion hok
    · rw [if_neg ht] at hok
      cases Except.ok.inj hok
      rfl
  · intro κ ρ ε w h w2 hok
    unfold TransactionWatcher.onError at hok
    by_cases ht : w.isTerminated = true
    · rw [if_pos ht] at hok
      exact Except.noConfusion hok
    · rw [if_neg ht] at hok
      cases Except.ok.inj hok
      rfl
  · intro κ ρ ε m h m2 hok
    unfold TransactionManager.onSuccess at hok
    by_cases ht : m.isTerminated = true
    · rw [if_pos ht] at hok
      exact Except.noConfusion hok
    · rw [if_neg ht] at hok
      cases Except.ok.inj hok
      rfl
  · intro κ ρ ε m h m2 hok
    unfold TransactionManager.onError at hok
    by_cases ht : m.isTerminated = true
    · rw [if_pos ht] at hok
      exact Except.noConfusion hok
    · rw [if_neg ht] at hok
      cases Except.ok.inj hok
      rfl
  · intro κ ρ ε ops w hw
    rw [runWatcherOps_not_terminated ops w hw]
    exact hw
  · intro κ ρ ε ops m hm
    rw [runManagerOps_not_terminated ops m hm]
    exact hm
  · intro κ ρ ε opts ex hex hpre
    cases hout : ex.outcome with
    | ok r =>
      cases hpost : opts.prisma.postFail with
      | none =>
        rw [watchedTransaction_fresh_ok opts ex r hex hpre hpost hout]
        exact ⟨_, rfl, rfl⟩
      | some pe =>
        rw [watchedTransaction_fresh_postFail opts ex r pe hex hpre hpost hout]
        exact ⟨_, rfl, rfl⟩
    | error e =>
      rw [watchedTransaction_fresh_userErr opts ex e hex hpre hout]
      exact ⟨_, rfl, rfl⟩
  · intro κ ρ ε p ex mo hpre
    cases hout : ex.outcome with
    | ok r =>
      cases hpost : p.postFail with
      | none =>
        rw [useTransactionManager_fresh_ok p ex mo r hpre hpost hout]
        exact ⟨_, rfl, rfl⟩
      | some pe =>
        rw [useTransactionManager_fresh_postFail p ex mo r pe hpre hpost hout]
        exact ⟨_, rfl, rfl⟩
    | error e =>
      rw [useTransactionManager_fresh_userErr p ex mo e hpre hout]
      exact ⟨_, rfl, rfl⟩

/-- Witness for C5: after a settled watched transaction the final watcher is
terminated. -/
theorem claim_C5_witness :
    ((watchedTransaction c5opts c5ex).finalWatcher.map
      (fun w => w.isTerminated)) = some true := by
  obtain ⟨w2, hsome, hterm⟩ :=
    claim_C5.2.2.2.2.2.2.2.2.2.2.2.1 Unit Nat Nat c5opts c5ex rfl rfl
  rw [hsome]
  simp [hterm]

/-- C9: while not terminated, reading client and registering handlers succeed,
appending to the proper list and returning the updated watcher/manager; once
terminated, all three operations throw the Error whose message is
"Transaction has already been terminated." and (being state-passing here)
leave the lists unchanged. -/
theorem claim_C9 {κ ρ ε : Type} (w : TransactionWatcher κ ρ ε)
    (m : TransactionManager κ ρ ε)
    (sh : ρ → Except ε ρ) (eh : TxErr ε → Except ε Unit)
    (msh : ρ → Except ε Unit) (meh : TxErr ε → Except ε Unit) :
    (w.isTerminated = false →
      w.getClient = Except.ok w.client ∧
      w.onSuccess sh = Except.ok
        { w with successHandlers := w.successHandlers ++ [sh] } ∧
      w.onError eh = Except.ok
        { w with errorHandlers := w.errorHandlers ++ [eh] }) ∧
    (w.isTerminated = true →
      w.getClient = Except.error terminatedMessage ∧
      w.onSuccess sh = Except.error terminatedMessage ∧
      w.onError eh = Except.error terminatedMessage) ∧
    (m.isTerminated = false →
      m.getClient = Except.ok m.client ∧
      m.onSuccess msh = Except.ok
        { m with successHandlers := m.successHandlers ++ [msh] } ∧
      m.onError meh = Except.ok
        { m with errorHandlers := m.errorHandlers ++ [meh] }) ∧
    (m.isTerminated = true →
      m.getClient = Except.error terminatedMessage ∧
      m.onSuccess msh = Except.error terminatedMessage ∧
      m.onError meh = Except.error terminatedMessage) ∧
    terminatedMessage = "Transaction has already been terminated." := by
  refine ⟨?_, ?_, ?_, ?_, rfl⟩
  · intro h
    exact ⟨by simp [TransactionWatcher.getClient, h],
      by simp [TransactionWatcher.onSuccess, h],
      by simp [TransactionWatcher.onError, h]⟩
  · intro h
    exact ⟨by simp [TransactionWatcher.getClient, h],
      by simp [TransactionWatcher.onSuccess, h],
      by simp [TransactionWatcher.onError, h]⟩
  · intro h
    exact ⟨by simp [TransactionManager.getClient, h],
      by simp [TransactionManager.onSuccess, h],
      by simp [TransactionManager.onError, h]⟩
  · intro h
    exact ⟨by simp [TransactionManager.getClient, h],
      by simp [TransactionManager.onSuccess, h],
      by simp [TransactionManager.onError, h]⟩

/-- Witness for C9 at concrete watcher and manager states. -/
theorem claim_C9_witness :
    c9w0.getClient = Except.ok () ∧
    c9wT.onSuccess c9f = Except.error terminatedMessage ∧
    c9m0.onError c9g = Except.ok
      { c9m0 with errorHandlers := c9m0.errorHandlers ++ [c9g] } ∧
    c9mT.getClient = Except.error terminatedMessage := by
  have h1 := claim_C9 c9w0 c9m0 c9f c9g c9fm c9g
  have h2 := claim_C9 c9wT c9mT c9f c9g c9fm c9g
  exact ⟨(h1.1 rfl).1, (h2.2.1 rfl).2.1, (h1.2.2.1 rfl).2.2, (h2.2.2.2.1 rfl).1⟩

/-- C10: with an existing watcher supplied, watchedTransaction just runs the
exec on it — the result is the exec's own settle value, no transaction is
started, no handler fires, nothing is logged, and the watcher state changes
only by the registrations the exec itself performs (so not at all for an exec
with no registrations). -/
theorem claim_C10 {κ ρ ε : Type} (opts : WatcherOptions κ ρ ε)
    (ex : WatcherExec ρ ε) (w : TransactionWatcher κ ρ ε)
    (hex : opts.existingWatcher = some w) :
    (watchedTransaction opts ex).result = (runWatcherExec ex w).2 ∧
    (watchedTransaction opts ex).transactionsStarted = 0 ∧
    (watchedTransaction opts ex).firedSuccess = [] ∧
    (watchedTransaction opts ex).firedError = [] ∧
    (watchedTransaction opts ex).loggedSuccess = none ∧
    (watchedTransaction opts ex).loggedError = none ∧
    (watchedTransaction opts ex).finalWatcher = some (runWatcherExec ex w).1 ∧
    (ex.ops = [] → (watchedTransaction opts ex).finalWatcher = some w) := by
  unfold watchedTransaction
  rw [hex]
  rcases hrw : runWatcherExec ex w with ⟨w2, res⟩
  simp only [hrw]
  refine ⟨trivial, trivial, trivial, trivial, trivial, trivial, trivial, ?_⟩
  intro hops
  have hplain : runWatcherExec ex w = (w, liftUserErr ex.outcome) := by
    unfold runWatcherExec
    rw [hops]
    rfl
  rw [hplain] at hrw
  cases hrw
  rfl

/-- Witness for C10 at a concrete existing watcher. -/
theorem claim_C10_witness :
    (watchedTransaction c10opts c10ex).transactionsStarted = 0 ∧
    (watchedTransaction c10opts c10ex).finalWatcher = some c10w := by
  have h := claim_C10 c10opts c10ex c10w rfl
  exact ⟨h.2.1, h.2.2.2.2.2.2.2 rfl⟩

/-- C6: a value passing the PrismaClient instance check with a present
transaction method makes useTransaction run the exec inside a new transaction
on the derived transaction client and return that result; a transaction
client (which fails the instance check) is passed to the exec directly, with
no new transaction. -/
theorem claim_C6 {κ τ : Type} (c : PrismaOrClient κ) (txClientOf : κ → κ)
    (exec : κ → τ) :
    (c.isPrismaInstance = true → c.hasTransactionMethod = true →
      useTransaction c txClientOf exec =
        { result := exec (txClientOf c.value), transactionsStarted := 1,
          execArg := txClientOf c.value }) ∧
    (c.isPrismaInstance = false →
      useTransaction c txClientOf exec =
        { result := exec c.value, transactionsStarted := 0,
          execArg := c.value }) := by
  constructor
  · intro h1 h2
    simp [useTransaction, h1, h2]
  · intro h1
    simp [useTransaction, h1]

/-- Witness for C6 at concrete clients. -/
theorem claim_C6_witness :
    (useTransaction c6client (fun n => n + 100) (fun n => n * 2)).result = 202 ∧
    (useTransaction c6tx (fun n => n + 100) (fun n => n * 2)).transactionsStarted
      = 0 := by
  have h1 := (claim_C6 c6client (fun n => n + 100) (fun n => n * 2)).1 rfl rfl
  have h2 := (claim_C6 c6tx (fun n => n + 100) (fun n => n * 2)).2 rfl
  rw [h1, h2]
  exact ⟨rfl, rfl⟩

end PrismaUtils
